import Mathlib

/-!
Verification of the Real-Time-Video-Chat backend.

The development shallowly embeds the two stateful components of the Go
backend:

* the matchmaking coordinator of `backend/cmd/main.go` — the Redis-backed
  availability set (`available_users`), the per-user room assignment keys
  (`user_room:<id>`), the `/api/match/random` and `/api/match/similar`
  handlers, and the periodic background matching sweep
  (`startMatchingService`);
* the signaling broker of `backend/WebSocket/webrtc_signaling.go` — the
  in-memory room table, the per-peer room pointer, and the handlers
  `handleJoinRoom`, `handleLeaveRoom`, `handleOffer`, `handleAnswer`,
  `handleIceCandidate`, plus the bounded outbound queue of `sendToPeer`.

Redis is modelled as explicit state (a duplicate-free list of strings for
the set, an assignment function for the `user_room:` keys).  Handlers
become pure state transformers; the messages a handler passes to
`sendToPeer` are returned as an explicit list of (target peer, message)
pairs.  Fresh UUID-based room identifiers are passed in as parameters.
-/

namespace VideoChat

/-! ## Matchmaking coordinator (backend/cmd/main.go) -/

/-- The `User` record stored at `user:<id>` (struct `User` in main.go). -/
structure User where
  id : String := ""
  name : String := ""
  language : String := ""
  cefrLevel : String := ""
  age : Int := 0
  gender : String := ""
  interests : List String := []
  topics : List String := []
  createdAt : Int := 0
deriving DecidableEq, Repr

/-- The JSON body of a match endpoint reply (struct `MatchResponse`). -/
structure MatchResponse where
  matched : Bool := false
  userID : String := ""
  roomID : String := ""
  reason : String := ""
deriving DecidableEq, Repr

/-- Outcome of one HTTP match endpoint call: a JSON reply or an
`http.Error` status. -/
inductive ApiResult where
  | ok (resp : MatchResponse) : ApiResult
  | httpError (status : Nat) (message : String) : ApiResult
deriving DecidableEq, Repr

/-- The Redis state the coordinator manipulates: the `available_users`
set (kept as a duplicate-free list), the `user_room:<id>` keys
(`none` = key absent), and the `user:<id>` profile records. -/
structure MatchState where
  avail : List String
  userRoom : String → Option String
  users : String → Option User

/-- Redis `SADD` of a single member (a set: inserting a present member
changes nothing). -/
def sAdd (s : List String) (x : String) : List String :=
  if x ∈ s then s else s ++ [x]

/-- `mapset.Set.Add`: insert a tag if absent (`userTags` builds a set). -/
def addTag (s : List String) (t : String) : List String :=
  if t ∈ s then s else s ++ [t]

/-- Whitespace test used by `strings.TrimSpace` (ASCII cases). -/
def isSpaceChar (c : Char) : Bool :=
  c = ' ' || c = '\t' || c = '\n' || c = '\r'

/-- `strings.TrimSpace`: drop leading and trailing whitespace. -/
def trimSpace (s : String) : String :=
  String.mk (((s.data.dropWhile isSpaceChar).reverse.dropWhile isSpaceChar).reverse)

/-- `strings.ToLower`: lower-case every character. -/
def lowerString (s : String) : String :=
  String.mk (s.data.map Char.toLower)

/-- `ageBucket` from main.go: coarse age buckets for similarity tags. -/
def ageBucket (age : Int) : String :=
  if age < 18 then "u18"
  else if age ≤ 25 then "18-25"
  else if age ≤ 35 then "26-35"
  else if age ≤ 45 then "36-45"
  else if age ≤ 55 then "46-55"
  else "55+"

/-- `userTags` from main.go: the tag set built from a profile (language,
CEFR level, gender, interests, topics, age bucket), in insertion order. -/
def userTags (u : User) : List String :=
  let s : List String := []
  let s := if u.language ≠ "" then addTag s ("lang:" ++ u.language) else s
  let s := if u.cefrLevel ≠ "" then addTag s ("cefr:" ++ u.cefrLevel) else s
  let s := if u.gender ≠ "" then addTag s ("gender:" ++ u.gender) else s
  let s := u.interests.foldl
    (fun acc it => addTag acc ("interest:" ++ lowerString (trimSpace it))) s
  let s := u.topics.foldl
    (fun acc tp => addTag acc ("topic:" ++ lowerString (trimSpace tp))) s
  let s := if u.age > 0 then addTag s ("age:" ++ ageBucket u.age) else s
  s

/-- `intersectionScore` from main.go: cardinality of the intersection of
two tag sets (the first list is duplicate-free by construction, so the
filter length is the set-intersection cardinality of `a.Intersect(b)`). -/
def intersectionScore (a : List String) (b : List String) : Nat :=
  (a.filter (fun t => t ∈ b)).length

/-- The candidate scan of the `/api/match/random` handler (main.go lines
205-221): first member of the availability snapshot different from the
requester, or the empty string when none exists. -/
def firstOther (avail : List String) (requesterID : String) : String :=
  match avail.find? (fun c => c != requesterID) with
  | some c => c
  | none => ""

/-- The fresh-pair tail of the `/api/match/random` handler (main.go lines
233-253): mint a room, `SREM` both identifiers from `available_users`,
and write `user_room:` for both (requester first, then the match). -/
def matchRandomPair (st : MatchState) (requesterID : String) (matched : String)
    (freshRoomID : String) : MatchState × ApiResult :=
  let roomID := freshRoomID
  let availAfter := st.avail.filter (fun x => x != requesterID && x != matched)
  let ur1 := fun x => if x = requesterID then some roomID else st.userRoom x
  let ur2 := fun x => if x = matched then some roomID else ur1 x
  ({ st with avail := availAfter, userRoom := ur2 },
   ApiResult.ok { matched := true, userID := matched, roomID := roomID })

/-- The `/api/match/random` handler body after the idempotent re-read
(main.go lines 205-253): scan for a candidate; if the candidate already
has a room, attach the requester to it; otherwise pair freshly. -/
def matchRandomScan (st : MatchState) (requesterID : String)
    (freshRoomID : String) : MatchState × ApiResult :=
  let matched := firstOther st.avail requesterID
  if matched = "" then
    (st, ApiResult.ok { matched := false, reason := "no users available" })
  else
    match st.userRoom matched with
    | some matchedRoom =>
      if matchedRoom ≠ "" then
        let availAfter := st.avail.filter (fun x => x != requesterID)
        let urAfter := fun x => if x = requesterID then some matchedRoom else st.userRoom x
        ({ st with avail := availAfter, userRoom := urAfter },
         ApiResult.ok { matched := true, userID := matched, roomID := matchedRoom })
      else matchRandomPair st requesterID matched freshRoomID
    | none => matchRandomPair st requesterID matched freshRoomID

/-- The `/api/match/random` handler (main.go lines 190-254).  The fresh
UUID room identifier is a parameter. -/
def matchRandom (st : MatchState) (requesterID : String)
    (freshRoomID : String) : MatchState × ApiResult :=
  if requesterID = "" then (st, ApiResult.httpError 400 "user_id required")
  else
    match st.userRoom requesterID with
    | some existingRoom =>
      if existingRoom ≠ "" then
        (st, ApiResult.ok { matched := true, roomID := existingRoom })
      else matchRandomScan st requesterID freshRoomID
    | none => matchRandomScan st requesterID freshRoomID

/-- The best-candidate fold of the `/api/match/similar` handler (main.go
lines 277-292): skip the requester and profile-less candidates, keep the
first candidate with a strictly larger intersection score than the best
so far (which starts at 0). -/
def bestStep (st : MatchState) (requesterID : String) (reqTags : List String)
    (best : String × Nat) (id : String) : String × Nat :=
  if id = requesterID then best
  else
    match st.users id with
    | none => best
    | some u =>
      let score := intersectionScore reqTags (userTags u)
      if score > best.2 then (id, score) else best

/-- The loop of the `/api/match/similar` handler: fold `bestStep` over
the availability snapshot starting from no candidate and score 0. -/
def bestMatch (st : MatchState) (requesterID : String)
    (reqTags : List String) : String × Nat :=
  st.avail.foldl (bestStep st requesterID reqTags) (⟨"", 0⟩ : String × Nat)

/-- The `/api/match/similar` handler (main.go lines 257-300).  Note the
source replies with a fresh room identifier and removes both users from
`available_users` but writes no `user_room:` assignment on this path. -/
def matchSimilar (st : MatchState) (requesterID : String)
    (freshRoomID : String) : MatchState × ApiResult :=
  if requesterID = "" then (st, ApiResult.httpError 400 "user_id required")
  else
    match st.users requesterID with
    | none => (st, ApiResult.httpError 404 "user not found")
    | some reqUser =>
      let reqTags := userTags reqUser
      let best := bestMatch st requesterID reqTags
      if best.1 = "" then
        (st, ApiResult.ok { matched := false, reason := "no similar users available" })
      else
        let roomID := freshRoomID
        let availAfter := st.avail.filter (fun x => x != requesterID && x != best.1)
        ({ st with avail := availAfter },
         ApiResult.ok { matched := true, userID := best.1, roomID := roomID })

/-- The action phase of one background sweep tick (`startMatchingService`,
main.go lines 358-387): starting at the `SREM` of the two chosen
identifiers.  The sweep snapshots `available_users` and double-checks
membership before this point; a concurrent pairing may run in between, so
this phase is modelled over the state as of the `SREM`.  `removed` is the
`SREM` return value; when it is not 2 the source consults
`SIsMember(user1)` on the post-removal set to decide which identifier to
re-add; when it is 2 both `user_room:` keys are written. -/
def sweepAct (st : MatchState) (user1 : String) (user2 : String)
    (roomID : String) : MatchState :=
  let removed : Nat :=
    (if user1 ∈ st.avail then 1 else 0) + (if user2 ∈ st.avail then 1 else 0)
  let availAfter := st.avail.filter (fun x => x != user1 && x != user2)
  if removed ≠ 2 then
    if removed = 1 then
      let isUser1StillAvailable := user1 ∈ availAfter
      if isUser1StillAvailable then { st with avail := sAdd availAfter user2 }
      else { st with avail := sAdd availAfter user1 }
    else { st with avail := availAfter }
  else
    let ur1 := fun x => if x = user1 then some roomID else st.userRoom x
    let ur2 := fun x => if x = user2 then some roomID else ur1 x
    { st with avail := availAfter, userRoom := ur2 }

/-- One full sweep tick run without interference (`startMatchingService`,
main.go lines 327-394): take the first two members of the availability
snapshot, double-check both are still available, then run the action
phase. -/
def sweepTick (st : MatchState) (roomID : String) : MatchState :=
  match st.avail with
  | user1 :: user2 :: _ =>
    if user1 ∈ st.avail ∧ user2 ∈ st.avail then sweepAct st user1 user2 roomID
    else st
  | _ => st

/-! ## Signaling broker (backend/WebSocket/webrtc_signaling.go) -/

/-- The envelope type tag (`MessageType` constants). -/
inductive MessageType where
  | joinRoom
  | leaveRoom
  | offer
  | answer
  | iceCandidate
  | roomJoined
  | roomLeft
  | peerJoined
  | peerLeft
  | error
deriving DecidableEq, Repr

/-- The `Data` field of an envelope: absent, an uninspected client
payload, or one of the maps the server builds (`room_joined`,
`room_left`/`peer_joined`/`peer_left` data). -/
inductive MsgData where
  | empty : MsgData
  | payload (s : String) : MsgData
  | joined (peerId : String) (roomId : String) (isInitiator : Bool) : MsgData
  | left (peerId : String) (roomId : String) : MsgData
  | peerInfo (peerId : String) : MsgData
deriving DecidableEq, Repr

/-- `SignalingMessage`: the wire envelope (omitted JSON fields modelled
by the defaults). -/
structure SignalingMessage where
  type : MessageType
  roomId : String := ""
  peerId : String := ""
  data : MsgData := MsgData.empty
  error : String := ""
deriving DecidableEq, Repr

/-- The broker state: the room table `SignalingServer.Rooms` (membership
kept as the list of peer identifiers of `Room.Peers`; `none` = room
absent) and each peer's `Peer.RoomID` pointer (empty string =
unassigned). -/
structure SigState where
  rooms : String → Option (List String)
  peerRoom : String → String

/-- `room.Peers[peer.ID] = peer`: Go map insertion keyed by peer id. -/
def insertPeer (members : List String) (p : String) : List String :=
  if p ∈ members then members else members ++ [p]

/-- Membership of a room (empty when the room is absent). -/
def roomMembers (st : SigState) (r : String) : List String :=
  (st.rooms r).getD []

/-- `len(room.Peers)` (0 when the room is absent). -/
def roomSize (st : SigState) (r : String) : Nat :=
  (roomMembers st r).length

/-- `handleJoinRoom`: fetch-or-create the room, reject with a
`Room is full` error when membership is already 2, otherwise insert the
peer, set its room pointer, confirm with `room_joined`
(`is_initiator` = membership count before the insert == 0), and notify
the other occupants with `peer_joined`.  The returned list collects the
`sendToPeer` calls in source order. -/
def handleJoinRoom (st : SigState) (p : String) (msgRoomId : String) :
    SigState × List (String × SignalingMessage) :=
  let fetched :=
    match st.rooms msgRoomId with
    | some m => (m, st.rooms)
    | none => ([], fun r => if r = msgRoomId then some [] else st.rooms r)
  let members := fetched.1
  let peerCount := members.length
  if peerCount ≥ 2 then
    ({ st with rooms := fetched.2 },
     [(p, { type := MessageType.error, error := "Room is full" })])
  else
    let isInitiator := peerCount == 0
    let updatedMembers := insertPeer members p
    let st2 : SigState :=
      { rooms := fun r => if r = msgRoomId then some updatedMembers else st.rooms r,
        peerRoom := fun q => if q = p then msgRoomId else st.peerRoom q }
    let confirm : SignalingMessage :=
      { type := MessageType.roomJoined, roomId := msgRoomId,
        data := MsgData.joined p msgRoomId isInitiator }
    let notifies :=
      (updatedMembers.filter (fun q => q != p)).map
        (fun q => (q, ({ type := MessageType.peerJoined,
                         data := MsgData.peerInfo p } : SignalingMessage)))
    (st2, (p, confirm) :: notifies)

/-- `handleLeaveRoom`: error when the peer has no room pointer or its
room is missing from the table; otherwise delete the peer from the
membership map, clear its pointer, confirm with `room_left`, notify the
remaining occupants with `peer_left`, and drop the room from the table
when it became empty.  (The source also spawns `markUserAvailable`
against the registry — a matchmaking side effect outside the room
table.) -/
def handleLeaveRoom (st : SigState) (p : String) :
    SigState × List (String × SignalingMessage) :=
  if st.peerRoom p = "" then
    (st, [(p, { type := MessageType.error, error := "Not in a room" })])
  else
    match st.rooms (st.peerRoom p) with
    | none => (st, [(p, { type := MessageType.error, error := "Room not found" })])
    | some members =>
      let roomID := st.peerRoom p
      let remaining := members.filter (fun q => q != p)
      let roomsAfterRemove : String → Option (List String) :=
        fun r => if r = roomID then some remaining else st.rooms r
      let roomsFinal :=
        if remaining.length = 0 then
          fun r => if r = roomID then none else roomsAfterRemove r
        else roomsAfterRemove
      let st2 : SigState :=
        { rooms := roomsFinal,
          peerRoom := fun q => if q = p then "" else st.peerRoom q }
      let confirm : SignalingMessage :=
        { type := MessageType.roomLeft, roomId := roomID,
          data := MsgData.left p roomID }
      let notifies :=
        (remaining.filter (fun q => q != p)).map
          (fun q => (q, ({ type := MessageType.peerLeft,
                           data := MsgData.peerInfo p } : SignalingMessage)))
      (st2, (p, confirm) :: notifies)

/-- The shared body of `handleOffer`, `handleAnswer` and
`handleIceCandidate` (the three are textually identical up to the type
tag): error when the sender has no room pointer or its room is missing,
otherwise re-send the payload, tagged with the sender's peer id, to every
other member of the room. -/
def handleForward (st : SigState) (p : String) (t : MessageType) (d : MsgData) :
    SigState × List (String × SignalingMessage) :=
  if st.peerRoom p = "" then
    (st, [(p, { type := MessageType.error, error := "Not in a room" })])
  else
    match st.rooms (st.peerRoom p) with
    | none => (st, [(p, { type := MessageType.error, error := "Room not found" })])
    | some members =>
      (st, (members.filter (fun q => q != p)).map
        (fun q => (q, ({ type := t, peerId := p, data := d } : SignalingMessage))))

/-- `handleOffer`: forward an offer envelope. -/
def handleOffer (st : SigState) (p : String) (d : MsgData) :
    SigState × List (String × SignalingMessage) :=
  handleForward st p MessageType.offer d

/-- `handleAnswer`: forward an answer envelope. -/
def handleAnswer (st : SigState) (p : String) (d : MsgData) :
    SigState × List (String × SignalingMessage) :=
  handleForward st p MessageType.answer d

/-- `handleIceCandidate`: forward an ICE candidate envelope. -/
def handleIceCandidate (st : SigState) (p : String) (d : MsgData) :
    SigState × List (String × SignalingMessage) :=
  handleForward st p MessageType.iceCandidate d

/-- A peer's bounded outbound queue (`Peer.SendChan`, created with
capacity 100). -/
structure PeerQueue where
  msgs : List SignalingMessage
  capacity : Nat
deriving DecidableEq, Repr

/-- `sendToPeer`'s non-blocking enqueue (the `select` with a `default`
branch): append when the buffered channel has free capacity, otherwise
drop the newly offered message.  (Marshalling of `SignalingMessage` to
JSON cannot fail, so the marshal-error early return is dead.) -/
def sendToPeer (q : PeerQueue) (m : SignalingMessage) : PeerQueue :=
  if q.msgs.length < q.capacity then { q with msgs := q.msgs ++ [m] } else q

/-- Run a list of `join_room` requests (peer, room) through the broker,
keeping only the state. -/
def processJoins (st : SigState) : List (String × String) → SigState
  | [] => st
  | (p, r) :: rest => processJoins (handleJoinRoom st p r).1 rest

/-- Run a list of peers joining one fixed room, collecting every message
the handlers emit in order. -/
def joinRunToRoom (st : SigState) (ps : List String) (r : String) :
    SigState × List (String × SignalingMessage) :=
  match ps with
  | [] => (st, [])
  | p :: rest =>
    let res := handleJoinRoom st p r
    let tail := joinRunToRoom res.1 rest r
    (tail.1, res.2 ++ tail.2)

/-- The `is_initiator` flags carried by the `room_joined` confirmations
of an output stream, in order. -/
def initiatorFlags (outs : List (String × SignalingMessage)) : List Bool :=
  outs.filterMap
    (fun s =>
      match s.2.type, s.2.data with
      | MessageType.roomJoined, MsgData.joined _ _ flag => some flag
      | _, _ => none)

/-! ## Concrete states used by witnesses and counterexamples -/

/-- A match state with two profiled users sharing the interest tag
`interest:music`, where only `u2` is available. -/
def stSimilarPair : MatchState :=
  { avail := ["u2"],
    userRoom := fun _ => none,
    users := fun x =>
      if x = "u1" then some { id := "u1", interests := ["music"] }
      else if x = "u2" then some { id := "u2", interests := ["music"] }
      else none }

/-- A match state with two profiled users whose tag sets are disjoint
(`interest:music` vs `interest:chess`), where only `u2` is available. -/
def stSimilarDisjoint : MatchState :=
  { avail := ["u2"],
    userRoom := fun _ => none,
    users := fun x =>
      if x = "u1" then some { id := "u1", interests := ["music"] }
      else if x = "u2" then some { id := "u2", interests := ["chess"] }
      else none }

/-- The match state as of the sweep's `SREM`, after a concurrent pairing
claimed `u1` (removed it from availability and assigned it `room_r0`)
between the sweep's double-check and its removal. -/
def stSweepRace : MatchState :=
  { avail := ["u2"],
    userRoom := fun x => if x = "u1" then some "room_r0" else none,
    users := fun _ => none }

/-- A match state whose requester `u1` is already assigned `room_r0`. -/
def stAssigned : MatchState :=
  { avail := ["u2", "u3"],
    userRoom := fun x => if x = "u1" then some "room_r0" else none,
    users := fun _ => none }

/-- A broker state with no rooms and no room pointers. -/
def stSigEmpty : SigState :=
  { rooms := fun _ => none, peerRoom := fun _ => "" }

/-- A broker state whose room `r1` holds the single peer `pA`, with
`pA`'s room pointer set to `r1`. -/
def stSigSolo : SigState :=
  { rooms := fun r => if r = "r1" then some ["pA"] else none,
    peerRoom := fun q => if q = "pA" then "r1" else "" }

/-- A broker state whose room `r1` holds the peers `pA` and `pB`. -/
def stSigFull : SigState :=
  { rooms := fun r => if r = "r1" then some ["pA", "pB"] else none,
    peerRoom := fun q => if q = "pA" then "r1" else if q = "pB" then "r1" else "" }

/-! ## Claims -/

/-- C6: a requester that already holds a room assignment gets that same
room back from the on-demand random pairing operation, with no new room
minted and no change to the availability set; a second successive call
returns the same room identifier. -/
theorem match_random_idempotent (st : MatchState) (requesterID : String)
    (r : String) (f1 : String) (f2 : String)
    (hreq : requesterID ≠ "") (hr : st.userRoom requesterID = some r)
    (hne : r ≠ "") :
    matchRandom st requesterID f1 =
      (st, ApiResult.ok { matched := true, roomID := r }) ∧
    matchRandom (matchRandom st requesterID f1).1 requesterID f2 =
      (st, ApiResult.ok { matched := true, roomID := r }) := by
  have h1 : matchRandom st requesterID f1 =
      (st, ApiResult.ok { matched := true, roomID := r }) := by
    simp [matchRandom, hreq, hr, hne]
  exact ⟨h1, by rw [h1]; simp [matchRandom, hreq, hr, hne]⟩

/-- C6 witness: concrete requester `u1` already assigned `room_r0`. -/
theorem match_random_idempotent_witness :
    matchRandom stAssigned "u1" "room_f1" =
      (stAssigned, ApiResult.ok { matched := true, roomID := "room_r0" }) ∧
    matchRandom (matchRandom stAssigned "u1" "room_f1").1 "u1" "room_f2" =
      (stAssigned, ApiResult.ok { matched := true, roomID := "room_r0" }) :=
  match_random_idempotent stAssigned "u1" "room_r0" "room_f1" "room_f2"
    (by decide) rfl (by decide)

/-- C8: a `leave_room` request from a peer with no current room produces
exactly the single error reply `Not in a room` to that peer and returns
the broker state unchanged. -/
theorem leave_room_not_in_room (st : SigState) (p : String)
    (h : st.peerRoom p = "") :
    handleLeaveRoom st p =
      (st, [(p, { type := MessageType.error, error := "Not in a room" })]) := by
  simp [handleLeaveRoom, h]

/-- C8 witness: a peer of the empty broker state. -/
theorem leave_room_not_in_room_witness :
    handleLeaveRoom stSigEmpty "pA" =
      (stSigEmpty,
       [("pA", { type := MessageType.error, error := "Not in a room" })]) :=
  leave_room_not_in_room stSigEmpty "pA" rfl

/-- C9: the non-blocking enqueue of `sendToPeer` appends the message when
the bounded queue has free capacity and drops the newly offered message,
leaving the queue contents unchanged, when it is full; the capacity bound
is preserved. -/
theorem send_to_peer_drop_newest (q : PeerQueue) (m : SignalingMessage) :
    (q.msgs.length < q.capacity → (sendToPeer q m).msgs = q.msgs ++ [m]) ∧
    (q.capacity ≤ q.msgs.length → (sendToPeer q m).msgs = q.msgs) ∧
    (sendToPeer q m).capacity = q.capacity ∧
    (q.msgs.length ≤ q.capacity → (sendToPeer q m).msgs.length ≤ q.capacity) := by
  refine ⟨fun h => by simp [sendToPeer, h], fun h => ?_, ?_, fun h => ?_⟩
  · simp [sendToPeer, Nat.not_lt.mpr h]
  · unfold sendToPeer
    split <;> rfl
  · unfold sendToPeer
    split
    · next hlt => simpa using hlt
    · simpa using h

/-- C9 witness: a queue of capacity 1, exercised below and at capacity. -/
theorem send_to_peer_drop_newest_witness :
    (sendToPeer { msgs := [], capacity := 1 }
        { type := MessageType.error }).msgs =
      [({ type := MessageType.error } : SignalingMessage)] ∧
    (sendToPeer { msgs := [{ type := MessageType.roomLeft }], capacity := 1 }
        { type := MessageType.error }).msgs =
      [({ type := MessageType.roomLeft } : SignalingMessage)] :=
  ⟨(send_to_peer_drop_newest { msgs := [], capacity := 1 }
      { type := MessageType.error }).1 (by decide),
   (send_to_peer_drop_newest { msgs := [{ type := MessageType.roomLeft }], capacity := 1 }
      { type := MessageType.error }).2.1 (by decide)⟩

/-- C1: the similarity pairing path completes a pairing (both identifiers
leave the availability set and a fresh room identifier is returned) yet
writes no room assignment for either identifier — contradicting the claim
that after every pairing operation both identifiers map to the same room
identifier. -/
theorem similar_match_writes_no_room_assignment :
    (matchSimilar stSimilarPair "u1" "room_f").2 =
      ApiResult.ok { matched := true, userID := "u2", roomID := "room_f" } ∧
    (matchSimilar stSimilarPair "u1" "room_f").1.avail = [] ∧
    (matchSimilar stSimilarPair "u1" "room_f").1.userRoom "u1" = none ∧
    (matchSimilar stSimilarPair "u1" "room_f").1.userRoom "u2" = none := by
  refine ⟨?_, ?_, rfl, rfl⟩ <;> decide

/-- C5: the sweep's compensation after a two-key removal that removed
only one identifier.  Here the concurrent pairing had claimed `u1`
(assigned `room_r0`), so the claim requires `u2` — the identifier with no
room assignment — to be re-inserted; the code instead re-inserts `u1`,
leaving `u1` both available and assigned, and `u2` in neither set. -/
theorem sweep_compensation_strands_user :
    (sweepAct stSweepRace "u1" "u2" "room_new").avail = ["u1"] ∧
    (sweepAct stSweepRace "u1" "u2" "room_new").userRoom "u1" = some "room_r0" ∧
    (sweepAct stSweepRace "u1" "u2" "room_new").userRoom "u2" = none := by
  refine ⟨?_, rfl, rfl⟩
  decide

/-- Helper: the candidate fold never leaves the default when every
profiled candidate other than the requester scores 0 against the
requester's tags. -/
theorem foldl_bestStep_default (st : MatchState) (requesterID : String)
    (reqTags : List String) (l : List String)
    (h : ∀ c ∈ l, c ≠ requesterID →
      ∀ v, st.users c = some v → intersectionScore reqTags (userTags v) = 0) :
    l.foldl (bestStep st requesterID reqTags) (⟨"", 0⟩ : String × Nat) =
      (⟨"", 0⟩ : String × Nat) := by
  induction l with
  | nil => rfl
  | cons c l ih =>
    have hc : bestStep st requesterID reqTags (⟨"", 0⟩ : String × Nat) c =
        (⟨"", 0⟩ : String × Nat) := by
      unfold bestStep
      by_cases hcr : c = requesterID
      · simp [hcr]
      · rcases hu : st.users c with _ | v
        · simp [hcr, hu]
        · have hz := h c (List.mem_cons_self c l) hcr v hu
          simp [hcr, hu, hz]
    rw [List.foldl_cons, hc]
    exact ih (fun c hmem => h c (List.mem_cons_of_mem _ hmem))

/-- C10: similarity pairing selects a candidate only on a strictly
positive tag-intersection score: when every available profiled candidate
scores 0 against the requester, the handler replies NoMatch and the state
(in particular the availability set) is unchanged, even though candidates
are available. -/
theorem match_similar_requires_positive_score (st : MatchState)
    (requesterID : String) (freshRoomID : String) (u : User)
    (h0 : requesterID ≠ "") (h1 : st.users requesterID = some u)
    (h2 : ∀ c ∈ st.avail, c ≠ requesterID →
      ∀ v, st.users c = some v →
        intersectionScore (userTags u) (userTags v) = 0) :
    matchSimilar st requesterID freshRoomID =
      (st, ApiResult.ok { matched := false, reason := "no similar users available" }) := by
  have hb : bestMatch st requesterID (userTags u) = (⟨"", 0⟩ : String × Nat) :=
    foldl_bestStep_default st requesterID (userTags u) st.avail h2
  simp [matchSimilar, h0, h1, hb]

/-- C10 witness: `u1` (interest music) against the only available
candidate `u2` (interest chess): disjoint tags, so NoMatch with the
availability set untouched. -/
theorem match_similar_requires_positive_score_witness :
    stSimilarDisjoint.avail = ["u2"] ∧
    matchSimilar stSimilarDisjoint "u1" "room_f" =
      (stSimilarDisjoint,
       ApiResult.ok { matched := false, reason := "no similar users available" }) := by
  refine ⟨rfl, ?_⟩
  refine match_similar_requires_positive_score stSimilarDisjoint "u1" "room_f"
    { id := "u1", interests := ["music"] } (by decide) rfl ?_
  intro c hc hne v hv
  have hc2 : c = "u2" := by
    simpa [stSimilarDisjoint] using hc
  subst hc2
  have hv2 : v = { id := "u2", interests := ["chess"] } := by
    simpa [stSimilarDisjoint] using hv.symm
  subst hv2
  decide

/-- C7: the offer, answer and ice_candidate handlers share one forwarding
body; a sender with no room pointer gets the `Not in a room` error, a
dangling room pointer gets `Room not found`, and otherwise the state is
unchanged and exactly the other members of the sender's room each receive
an envelope of the same type carrying the sender's peer id and the
payload unchanged — no peer outside the room receives anything. -/
theorem forward_to_room_only (st : SigState) (p : String) (d : MsgData)
    (t : MessageType) :
    handleOffer st p d = handleForward st p MessageType.offer d ∧
    handleAnswer st p d = handleForward st p MessageType.answer d ∧
    handleIceCandidate st p d = handleForward st p MessageType.iceCandidate d ∧
    (st.peerRoom p = "" →
      handleForward st p t d =
        (st, [(p, { type := MessageType.error, error := "Not in a room" })])) ∧
    (st.peerRoom p ≠ "" → st.rooms (st.peerRoom p) = none →
      handleForward st p t d =
        (st, [(p, { type := MessageType.error, error := "Room not found" })])) ∧
    (∀ ms, st.peerRoom p ≠ "" → st.rooms (st.peerRoom p) = some ms →
      (handleForward st p t d).1 = st ∧
      (handleForward st p t d).2 =
        (ms.filter (fun q => q != p)).map
          (fun q => (q, ({ type := t, peerId := p, data := d } : SignalingMessage))) ∧
      ∀ q m, (q, m) ∈ (handleForward st p t d).2 →
        q ∈ ms ∧ q ≠ p ∧ m.type = t ∧ m.peerId = p ∧ m.data = d) := by
  refine ⟨rfl, rfl, rfl, fun h => by simp [handleForward, h],
    fun h1 h2 => by simp [handleForward, h1, h2], fun ms h1 h2 => ?_⟩
  refine ⟨by simp [handleForward, h1, h2], by simp [handleForward, h1, h2], ?_⟩
  intro q m hm
  simp only [handleForward, h1, if_false, h2, List.mem_map, List.mem_filter,
    bne_iff_ne, ne_eq, Prod.mk.injEq] at hm
  obtain ⟨x, ⟨hxm, hxp⟩, hxq, hM⟩ := hm
  subst hxq
  subst hM
  exact ⟨hxm, hxp, rfl, rfl, rfl⟩

/-- C7 witness: `pA` sends an offer with payload `X` in the 2-member room
`r1`: the single other member `pB` receives `offer{peer_id:pA, data:X}`
and the broker state is unchanged. -/
theorem forward_to_room_only_witness :
    (handleForward stSigFull "pA" MessageType.offer (MsgData.payload "X")).1 =
      stSigFull ∧
    (handleForward stSigFull "pA" MessageType.offer (MsgData.payload "X")).2 =
      [("pB", { type := MessageType.offer, peerId := "pA",
                data := MsgData.payload "X" })] := by
  have H := (forward_to_room_only stSigFull "pA" (MsgData.payload "X")
    MessageType.offer).2.2.2.2.2 ["pA", "pB"] (by decide) rfl
  exact ⟨H.1, H.2.1.trans (by decide)⟩

/-! ## Join-room helper lemmas -/

theorem insertPeer_length_le (m : List String) (p : String) :
    (insertPeer m p).length ≤ m.length + 1 := by
  unfold insertPeer
  split <;> simp

theorem insertPeer_ne_nil (m : List String) (p : String) :
    insertPeer m p ≠ [] := by
  unfold insertPeer
  split
  · next hmem =>
    intro hnil
    rw [hnil] at hmem
    simp at hmem
  · simp

/-- A join to a room that already has 2 members is rejected with the
`Room is full` error and leaves the broker state untouched. -/
theorem handleJoinRoom_full (st : SigState) (p : String) (r : String)
    (m : List String) (hm : st.rooms r = some m) (hlen : 2 ≤ m.length) :
    (handleJoinRoom st p r).1 = st ∧
    (handleJoinRoom st p r).2 =
      [(p, { type := MessageType.error, error := "Room is full" })] := by
  simp [handleJoinRoom, hm, hlen]

/-- A join to an existing room with membership below 2 inserts the peer,
confirms with the before-insert initiator flag, and notifies the other
occupants. -/
theorem handleJoinRoom_insert (st : SigState) (p : String) (r : String)
    (ms : List String) (hms : st.rooms r = some ms) (hlen : ms.length < 2) :
    (handleJoinRoom st p r).1.rooms r = some (insertPeer ms p) ∧
    (∀ r2, r2 ≠ r → (handleJoinRoom st p r).1.rooms r2 = st.rooms r2) ∧
    (handleJoinRoom st p r).1.peerRoom p = r ∧
    (handleJoinRoom st p r).2 =
      (p, { type := MessageType.roomJoined, roomId := r,
            data := MsgData.joined p r (ms.length == 0) }) ::
        ((insertPeer ms p).filter (fun q => q != p)).map
          (fun q => (q, ({ type := MessageType.peerJoined,
                           data := MsgData.peerInfo p } : SignalingMessage))) := by
  have hnotfull : ¬ 2 ≤ ms.length := Nat.not_le.mpr hlen
  refine ⟨?_, ?_, ?_, ?_⟩
  · simp [handleJoinRoom, hms, hnotfull]
  · intro r2 hr2
    simp [handleJoinRoom, hms, hnotfull, hr2]
  · simp [handleJoinRoom, hms, hnotfull]
  · simp [handleJoinRoom, hms, hnotfull]

/-- A join to an absent room creates it, makes the joiner its single
member, and confirms with `is_initiator = true` and no notification. -/
theorem handleJoinRoom_create (st : SigState) (p : String) (r : String)
    (hms : st.rooms r = none) :
    (handleJoinRoom st p r).1.rooms r = some [p] ∧
    (∀ r2, r2 ≠ r → (handleJoinRoom st p r).1.rooms r2 = st.rooms r2) ∧
    (handleJoinRoom st p r).1.peerRoom p = r ∧
    (handleJoinRoom st p r).2 =
      [(p, { type := MessageType.roomJoined, roomId := r,
             data := MsgData.joined p r true })] := by
  refine ⟨?_, ?_, ?_, ?_⟩
  · simp [handleJoinRoom, hms, insertPeer]
  · intro r2 hr2
    simp [handleJoinRoom, hms, hr2]
  · simp [handleJoinRoom, hms]
  · simp [handleJoinRoom, hms, insertPeer]

/-- One join step preserves the at-most-2 bound on every room. -/
theorem handleJoinRoom_size_le (st : SigState) (p : String) (rid : String)
    (h : ∀ r, roomSize st r ≤ 2) :
    ∀ r, roomSize (handleJoinRoom st p rid).1 r ≤ 2 := by
  intro r
  rcases hm : st.rooms rid with _ | m
  · by_cases hr : r = rid
    · subst hr
      simp [roomSize, roomMembers, (handleJoinRoom_create st p r hm).1, insertPeer]
    · rw [roomSize, roomMembers, (handleJoinRoom_create st p rid hm).2.1 r hr]
      exact h r
  · by_cases hlen : 2 ≤ m.length
    · rw [(handleJoinRoom_full st p rid m hm hlen).1]
      exact h r
    · have hlt : m.length < 2 := Nat.not_le.mp hlen
      by_cases hr : r = rid
      · subst hr
        rw [roomSize, roomMembers, (handleJoinRoom_insert st p r m hm hlt).1]
        have := insertPeer_length_le m p
        simp only [Option.getD_some]
        omega
      · rw [roomSize, roomMembers, (handleJoinRoom_insert st p rid m hm hlt).2.1 r hr]
        exact h r

/-- The at-most-2 bound is preserved by any sequence of joins. -/
theorem processJoins_size_le (st : SigState) (reqs : List (String × String))
    (h : ∀ r, roomSize st r ≤ 2) :
    ∀ r, roomSize (processJoins st reqs) r ≤ 2 := by
  induction reqs generalizing st with
  | nil => simpa [processJoins] using h
  | cons pr rest ih =>
    obtain ⟨p, r⟩ := pr
    rw [processJoins]
    exact ih (handleJoinRoom st p r).1 (handleJoinRoom_size_le st p r h)

/-- C2: over any sequence of `join_room` requests from a state whose
rooms all satisfy the capacity bound, no room's membership ever exceeds
2; and a join arriving at a room whose membership is already 2 yields
exactly the `Room is full` error reply and leaves the state unchanged. -/
theorem join_room_capacity (st : SigState) (reqs : List (String × String))
    (h : ∀ r, roomSize st r ≤ 2) :
    (∀ r, roomSize (processJoins st reqs) r ≤ 2) ∧
    (∀ p r, roomSize st r = 2 →
      (handleJoinRoom st p r).1 = st ∧
      (handleJoinRoom st p r).2 =
        [(p, { type := MessageType.error, error := "Room is full" })]) := by
  refine ⟨processJoins_size_le st reqs h, ?_⟩
  intro p r h2
  have hex : ∃ m, st.rooms r = some m ∧ m.length = 2 := by
    rcases hm : st.rooms r with _ | m
    · rw [roomSize, roomMembers, hm] at h2
      simp at h2
    · rw [roomSize, roomMembers, hm] at h2
      exact ⟨m, rfl, by simpa using h2⟩
  obtain ⟨m, hm, hlen⟩ := hex
  exact handleJoinRoom_full st p r m hm (by omega)

/-- C2 witness: the 2-member room `r1`; a third joiner `pC` is rejected
with `Room is full` and the state is unchanged. -/
theorem join_room_capacity_witness :
    roomSize stSigFull "r1" = 2 ∧
    (handleJoinRoom stSigFull "pC" "r1").1 = stSigFull ∧
    (handleJoinRoom stSigFull "pC" "r1").2 =
      [("pC", { type := MessageType.error, error := "Room is full" })] := by
  have hinv : ∀ r, roomSize stSigFull r ≤ 2 := by
    intro r
    by_cases hr : r = "r1" <;> simp [roomSize, roomMembers, stSigFull, hr]
  have H := (join_room_capacity stSigFull [] hinv).2 "pC" "r1" (by decide)
  exact ⟨by decide, H.1, H.2⟩

theorem initiatorFlags_append (a b : List (String × SignalingMessage)) :
    initiatorFlags (a ++ b) = initiatorFlags a ++ initiatorFlags b := by
  simp [initiatorFlags]

/-- The `peer_joined` notifications carry no initiator flag. -/
theorem initiatorFlags_notifies (l : List String) (p : String) :
    initiatorFlags (l.map
      (fun q => (q, ({ type := MessageType.peerJoined,
                       data := MsgData.peerInfo p } : SignalingMessage)))) = [] := by
  induction l with
  | nil => rfl
  | cons a l ih => simp [initiatorFlags]

/-- A `room_joined` confirmation contributes its flag to the flag
stream. -/
theorem initiatorFlags_cons_joined (q : String) (p : String) (rid : String)
    (flag : Bool) (l : List (String × SignalingMessage)) :
    initiatorFlags
      ((q, ({ type := MessageType.roomJoined, roomId := rid,
              data := MsgData.joined p rid flag } : SignalingMessage)) :: l) =
      flag :: initiatorFlags l := by
  simp [initiatorFlags]

/-- Once a room is nonempty, every further `room_joined` confirmation a
join run to that room emits carries `is_initiator = false`. -/
theorem joinRun_flags_false (ps : List String) (st : SigState) (r : String)
    (h : ∃ ms, st.rooms r = some ms ∧ ms ≠ []) :
    ∀ b ∈ initiatorFlags (joinRunToRoom st ps r).2, b = false := by
  induction ps generalizing st with
  | nil =>
    intro b hb
    simp [joinRunToRoom, initiatorFlags] at hb
  | cons p rest ih =>
    obtain ⟨ms, hms, hne⟩ := h
    intro b hb
    rw [joinRunToRoom] at hb
    rw [initiatorFlags_append] at hb
    rcases List.mem_append.mp hb with hb | hb
    · by_cases hlen : 2 ≤ ms.length
      · rw [(handleJoinRoom_full st p r ms hms hlen).2] at hb
        simp [initiatorFlags] at hb
      · have hlt : ms.length < 2 := Nat.not_le.mp hlen
        rw [(handleJoinRoom_insert st p r ms hms hlt).2.2.2,
          initiatorFlags_cons_joined, initiatorFlags_notifies] at hb
        have hflag : (ms.length == 0) = false := by
          simpa using hne
        rw [hflag] at hb
        simpa using hb
    · by_cases hlen : 2 ≤ ms.length
      · rw [(handleJoinRoom_full st p r ms hms hlen).1] at hb
        exact ih st ⟨ms, hms, hne⟩ b hb
      · have hlt : ms.length < 2 := Nat.not_le.mp hlen
        exact ih (handleJoinRoom st p r).1
          ⟨insertPeer ms p, (handleJoinRoom_insert st p r ms hms hlt).1,
           insertPeer_ne_nil ms p⟩ b hb

/-- C3: a `room_joined` confirmation reports
`is_initiator = (membership count immediately before the insert == 0)`;
consequently, over any join run into an initially absent room, the first
accepted joiner is confirmed with `is_initiator = true` and every later
accepted joiner with `is_initiator = false`. -/
theorem join_room_initiator (st : SigState) (r : String) (ps : List String)
    (hr : st.rooms r = none) :
    (∀ s q rid, roomSize s rid < 2 →
      (handleJoinRoom s q rid).2.head? =
        some (q, { type := MessageType.roomJoined, roomId := rid,
                   data := MsgData.joined q rid (roomSize s rid == 0) })) ∧
    (initiatorFlags (joinRunToRoom st ps r).2 = [] ∨
     ∃ rest, initiatorFlags (joinRunToRoom st ps r).2 = true :: rest ∧
       ∀ b ∈ rest, b = false) := by
  constructor
  · intro s q rid hsize
    rcases hms : s.rooms rid with _ | m
    · rw [(handleJoinRoom_create s q rid hms).2.2.2]
      simp [roomSize, roomMembers, hms]
    · have hlt : m.length < 2 := by
        simpa [roomSize, roomMembers, hms] using hsize
      rw [(handleJoinRoom_insert s q rid m hms hlt).2.2.2]
      simp [roomSize, roomMembers, hms]
  · rcases ps with _ | ⟨p, rest⟩
    · left
      rfl
    · right
      have hc := handleJoinRoom_create st p r hr
      refine ⟨initiatorFlags (joinRunToRoom (handleJoinRoom st p r).1 rest r).2,
        ?_, ?_⟩
      · rw [joinRunToRoom, initiatorFlags_append, hc.2.2.2]
        simp [initiatorFlags]
      · exact joinRun_flags_false rest (handleJoinRoom st p r).1 r
          ⟨[p], hc.1, by simp⟩

/-- C3 witness: peers `pA` then `pB` joining the fresh room `r1` of the
empty broker state produce the initiator flags `[true, false]`. -/
theorem join_room_initiator_witness :
    initiatorFlags (joinRunToRoom stSigEmpty ["pA", "pB"] "r1").2 =
      [true, false] ∧
    (initiatorFlags (joinRunToRoom stSigEmpty ["pA", "pB"] "r1").2 = [] ∨
     ∃ rest,
       initiatorFlags (joinRunToRoom stSigEmpty ["pA", "pB"] "r1").2 =
         true :: rest ∧
       ∀ b ∈ rest, b = false) :=
  ⟨by decide, (join_room_initiator stSigEmpty "r1" ["pA", "pB"] rfl).2⟩

/-- C4 counterexample: peer `pA` is already the sole member of room `r1`
and rejoins it.  The claim requires an `AlreadyInRoom` error; the handler
instead accepts the join again (a `room_joined` confirmation with
`is_initiator = false`, no error envelope of any kind) and membership
stays `[pA]`. -/
theorem join_already_in_room_not_rejected :
    (handleJoinRoom stSigSolo "pA" "r1").2 =
      [("pA", { type := MessageType.roomJoined, roomId := "r1",
                data := MsgData.joined "pA" "r1" false })] ∧
    roomMembers (handleJoinRoom stSigSolo "pA" "r1").1 "r1" = ["pA"] ∧
    (handleJoinRoom stSigSolo "pA" "r1").1.peerRoom "pA" = "r1" := by
  refine ⟨?_, ?_, rfl⟩ <;> decide

/-- C4 amended: the join handler performs no already-in-room check and
has no `AlreadyInRoom` error; a join from a peer that is already a member
of the target room is governed by the capacity rule alone — re-accepted
with `is_initiator = false` and unchanged membership while the room holds
fewer than 2 peers, and rejected with the `Room is full` error (state
unchanged) when it holds 2. -/
theorem join_room_already_member (st : SigState) (p : String) (r : String)
    (hmem : p ∈ roomMembers st r) :
    (roomSize st r = 2 →
      (handleJoinRoom st p r).1 = st ∧
      (handleJoinRoom st p r).2 =
        [(p, { type := MessageType.error, error := "Room is full" })]) ∧
    (roomSize st r < 2 →
      (handleJoinRoom st p r).2 =
        [(p, { type := MessageType.roomJoined, roomId := r,
               data := MsgData.joined p r false })] ∧
      (∀ r2, (handleJoinRoom st p r).1.rooms r2 = st.rooms r2) ∧
      (handleJoinRoom st p r).1.peerRoom p = r) := by
  have hex : ∃ m, st.rooms r = some m ∧ p ∈ m := by
    rcases hm : st.rooms r with _ | m
    · rw [roomMembers, hm] at hmem
      simp at hmem
    · rw [roomMembers, hm] at hmem
      exact ⟨m, rfl, by simpa using hmem⟩
  obtain ⟨m, hm, hpm⟩ := hex
  constructor
  · intro h2
    have hlen : m.length = 2 := by
      simpa [roomSize, roomMembers, hm] using h2
    exact handleJoinRoom_full st p r m hm (by omega)
  · intro h2
    have hlen : m.length < 2 := by
      simpa [roomSize, roomMembers, hm] using h2
    have hpos : 0 < m.length := List.length_pos.mpr (List.ne_nil_of_mem hpm)
    have hone : m.length = 1 := by omega
    have hmp : m = [p] := by
      rcases m with _ | ⟨a, m2⟩
      · simp at hpos
      · rcases m2 with _ | _
        · have : p = a := by simpa using hpm
          rw [this]
        · simp at hone
    subst hmp
    have hins := handleJoinRoom_insert st p r [p] hm hlen
    refine ⟨?_, ?_, hins.2.2.1⟩
    · rw [hins.2.2.2]
      simp [insertPeer]
    · intro r2
      by_cases hr2 : r2 = r
      · subst hr2
        rw [hins.1, hm]
        simp [insertPeer]
      · exact hins.2.1 r2 hr2

/-- C4 amended witness: `pA`, sole member of `r1`, rejoins `r1`: accepted
again with `is_initiator = false`, membership and room table unchanged. -/
theorem join_room_already_member_witness :
    (handleJoinRoom stSigSolo "pA" "r1").2 =
      [("pA", { type := MessageType.roomJoined, roomId := "r1",
                data := MsgData.joined "pA" "r1" false })] ∧
    (handleJoinRoom stSigSolo "pA" "r1").1.rooms "r1" = stSigSolo.rooms "r1" ∧
    (handleJoinRoom stSigSolo "pA" "r1").1.peerRoom "pA" = "r1" := by
  have H := (join_room_already_member stSigSolo "pA" "r1" (by decide)).2
    (by decide)
  exact ⟨H.1, H.2.1 "r1", H.2.2⟩

end VideoChat
